import Mathlib

/-!
# Verification of the Expense-tracker MCP server (`src/main.py`)

Shallow embedding of the persistence core of `main.py`: the SQLite-backed
expense table, the three data operations (`add_expense`, `list_expenses`,
`summarize`), the startup schema bootstrap (`init_db`) and the `categories`
resource.

Modelling decisions, all taken from the source and from documented SQLite
semantics (the store is `sqlite3`/`aiosqlite` on a table declared
`amount REAL NOT NULL`):

* A stored `amount` is either a numeric value (modelled as `ℚ`, standing for
  a SQLite REAL) or a TEXT value: SQLite column affinity converts a bound
  string that is a well-formed numeric literal to a number and otherwise
  stores the string unchanged — declaring `REAL` does not reject strings.
* Dates and range endpoints are TEXT compared with SQLite's BINARY collation,
  which on UTF-8 agrees with Lean's lexicographic `String` order.
* `SUM` over a group coerces each value numerically (a longest-numeric-prefix
  conversion, non-numeric text counting as 0); `numericPrefixVal` models it.
* The numeric-literal grammar modelled is `[+-]? digits (. digits)?` with at
  least one digit; exponent forms are not modelled (no claim involves them).
* Python's `sqlite3` raises `IntegrityError` when a `None` is bound into a
  `NOT NULL` column; `add_expense`'s `except` turns that into the
  `{status: "error"}` dictionary, modelled by `AddResult.error`.
-/

/-- A value stored in the `amount` column: SQLite REAL (as `ℚ`) or TEXT. -/
inductive Amount where
  | num (q : ℚ)
  | text (s : String)
deriving DecidableEq

/-- A caller-supplied `amount` argument: a number or a string. -/
inductive InValue where
  | num (q : ℚ)
  | str (s : String)
deriving DecidableEq

/-- Value of a digit list read in base 10 (`"050"` ↦ `50`). -/
def digitsVal (ds : List Char) : Nat :=
  ds.foldl (fun n c => 10 * n + (c.toNat - 48)) 0

/-- Parse a numeric literal `[+-]? digits (. digits)?` (at least one digit)
from the front of a character list, returning its value and the unconsumed
rest; `none` when no literal starts the list. The value of
`[+-]? ip . fp` is `sign * (ip * 10^|fp| + fp) / 10^|fp|`, built with `mkRat`
so that it is an exact rational. -/
def parseParts (cs : List Char) : Option (ℚ × List Char) :=
  let p : Int × List Char :=
    match cs with
    | '-' :: rest => (-1, rest)
    | '+' :: rest => (1, rest)
    | _ => (1, cs)
  let ip := p.2.takeWhile Char.isDigit
  let cs2 := p.2.dropWhile Char.isDigit
  match cs2 with
  | '.' :: cs3 =>
    let fp := cs3.takeWhile Char.isDigit
    let cs4 := cs3.dropWhile Char.isDigit
    if ip.isEmpty && fp.isEmpty then none
    else
      some (mkRat (p.1 * ((digitsVal ip * 10 ^ fp.length + digitsVal fp : Nat) : Int))
              (10 ^ fp.length), cs4)
  | _ =>
    if ip.isEmpty then none
    else some (mkRat (p.1 * ((digitsVal ip : Nat) : Int)) 1, cs2)

/-- SQLite column-affinity conversion of TEXT: the whole string must be a
well-formed numeric literal, else no conversion happens. -/
def parseNum (s : String) : Option ℚ :=
  match parseParts s.toList with
  | some (q, []) => some q
  | _ => none

/-- SQLite numeric coercion used by aggregates such as `SUM`: the value of the
longest numeric prefix, `0` when there is none. -/
def numericPrefixVal (s : String) : ℚ :=
  match parseParts s.toList with
  | some (q, _) => q
  | none => 0

/-- Applying the `REAL` affinity of the `amount` column to a bound value
(`main.py` line 68: the raw argument is bound as-is). -/
def Amount.ofInput : InValue → Amount
  | .num q => .num q
  | .str s =>
    match parseNum s with
    | some q => .num q
    | none => .text s

/-- The numeric value SQLite's `SUM` uses for a stored `amount`. -/
def Amount.toQ : Amount → ℚ
  | .num q => q
  | .text s => numericPrefixVal s

/-- Is the stored amount a numeric (REAL) value? -/
def Amount.isNum : Amount → Bool
  | .num _ => true
  | .text _ => false

/-- One row of the `expenses` table (`main.py` lines 29-38). -/
structure Row where
  id : Nat
  date : String
  amount : Amount
  category : String
  subcategory : String
  note : String
deriving DecidableEq

/-- The `expenses` table: rows in insertion order plus the `AUTOINCREMENT`
sequence value (next id to assign; deletes never rewind it). -/
structure DB where
  rows : List Row
  nextId : Nat
deriving DecidableEq

/-- The freshly created empty table: `AUTOINCREMENT` starts at 1. -/
def emptyDB : DB := ⟨[], 1⟩

/-- The ids already present are below the sequence value — `AUTOINCREMENT`
guarantees this for every table SQLite ever produces. -/
def WF (db : DB) : Prop := ∀ r ∈ db.rows, r.id < db.nextId

/-- Result dictionary of `add_expense` (`main.py` lines 72-79). -/
inductive AddResult where
  | success (id : Nat) (message : String)
  | error (message : String)
deriving DecidableEq

/-- Is the result the `{status: "error"}` envelope? -/
def AddResult.isError : AddResult → Bool
  | .success _ _ => false
  | .error _ => true

/-- `add_expense` (`main.py` lines 61-79). `date` and `category` are `Option`s
because the tool accepts untyped arguments and `None` bound into a `NOT NULL`
column raises `IntegrityError`, which the `except` clause converts into the
error envelope with the database unchanged (the transaction never commits).
On success the row is appended with the assigned `lastrowid`. -/
def add_expense (db : DB) (date : Option String) (amount : InValue)
    (category : Option String) (subcategory : String := "") (note : String := "") :
    DB × AddResult :=
  match date, category with
  | some d, some c =>
    (⟨db.rows ++ [⟨db.nextId, d, Amount.ofInput amount, c, subcategory, note⟩],
      db.nextId + 1⟩,
     .success db.nextId "Expense added successfully")
  | none, _ => (db, .error "DB Error: NOT NULL constraint failed: expenses.date")
  | some _, none => (db, .error "DB Error: NOT NULL constraint failed: expenses.category")

/-- Lexicographic `≤` on strings as a computation on the character lists
(SQLite's BINARY collation; it coincides with Lean's `String` order). -/
def strLeb (a b : String) : Bool :=
  decide (a.toList ≤ b.toList)

theorem strLeb_iff (a b : String) : strLeb a b = true ↔ a ≤ b := by
  simp [strLeb, String.le_iff_toList_le]

/-- `date BETWEEN ? AND ?` (`main.py` line 94): closed interval under
lexicographic TEXT comparison. -/
def inRange (s e : String) (r : Row) : Bool :=
  strLeb s r.date && strLeb r.date e

theorem inRange_iff (s e : String) (r : Row) :
    inRange s e r = true ↔ s ≤ r.date ∧ r.date ≤ e := by
  simp [inRange, strLeb_iff]

/-- `ORDER BY date DESC, id DESC` (`main.py` line 95) as a total preorder:
`rowLE a b` when `a` sorts no later than `b`. -/
def rowLE (a b : Row) : Prop :=
  b.date < a.date ∨ (b.date = a.date ∧ b.id ≤ a.id)

instance : DecidableRel rowLE := fun a b =>
  decidable_of_iff (b.date.toList < a.date.toList ∨ (b.date = a.date ∧ b.id ≤ a.id))
    (by rw [← String.lt_iff_toList_lt]; exact Iff.rfl)

instance : IsTotal Row rowLE :=
  ⟨fun a b => by
    rcases lt_trichotomy a.date b.date with h | h | h
    · exact Or.inr (Or.inl h)
    · rcases Nat.le_total b.id a.id with hi | hi
      · exact Or.inl (Or.inr ⟨h.symm, hi⟩)
      · exact Or.inr (Or.inr ⟨h, hi⟩)
    · exact Or.inl (Or.inl h)⟩

instance : IsTrans Row rowLE :=
  ⟨fun a b c hab hbc => by
    rcases hab with h1 | ⟨h1, h1'⟩ <;> rcases hbc with h2 | ⟨h2, h2'⟩
    · exact Or.inl (lt_trans h2 h1)
    · exact Or.inl (h2 ▸ h1)
    · exact Or.inl (lt_of_lt_of_le h2 (le_of_eq h1))
    · exact Or.inr ⟨h2.trans h1, le_trans h2' h1'⟩⟩

/-- `list_expenses` (`main.py` lines 84-103): select the rows in the closed
date interval, ordered by `date DESC, id DESC`. -/
def list_expenses (db : DB) (s e : String) : List Row :=
  List.insertionSort rowLE (db.rows.filter (fun r => inRange s e r))

/-- One output dictionary of `summarize`
(`SELECT category, SUM(amount) AS total_amount, COUNT(*) as count`). -/
structure SummaryRow where
  category : String
  total_amount : ℚ
  count : Nat
deriving DecidableEq

/-- `ORDER BY total_amount DESC` as a total preorder. -/
def sumLE (a b : SummaryRow) : Prop := b.total_amount ≤ a.total_amount

instance : DecidableRel sumLE := fun a b => by
  unfold sumLE; infer_instance

instance : IsTotal SummaryRow sumLE := ⟨fun a b => le_total b.total_amount a.total_amount⟩

instance : IsTrans SummaryRow sumLE := ⟨fun _ _ _ h1 h2 => le_trans h2 h1⟩

/-- Exact rational addition performed on numerator/denominator pairs, as the
accumulator of SQL `SUM` does; `qAdd_eq_add` shows it is `+` on `ℚ`. -/
def qAdd (a b : ℚ) : ℚ :=
  mkRat (a.num * b.den + b.num * a.den) (a.den * b.den)

theorem qAdd_eq_add (a b : ℚ) : qAdd a b = a + b := by
  have ha : ((a.den : ℤ) : ℚ) ≠ 0 := by
    exact_mod_cast Nat.cast_ne_zero.mpr a.den_nz
  have hb : ((b.den : ℤ) : ℚ) ≠ 0 := by
    exact_mod_cast Nat.cast_ne_zero.mpr b.den_nz
  have ha' : ((a.den : ℚ)) ≠ 0 := Nat.cast_ne_zero.mpr a.den_nz
  have hb' : ((b.den : ℚ)) ≠ 0 := Nat.cast_ne_zero.mpr b.den_nz
  conv_rhs => rw [← Rat.num_div_den a, ← Rat.num_div_den b, div_add_div _ _ ha' hb']
  rw [qAdd, Rat.mkRat_eq_div]
  push_cast
  ring_nf

/-- `SUM(amount)` over a list of rows, accumulated left to right. -/
def sumRows (rows : List Row) : ℚ :=
  rows.foldl (fun acc r => qAdd acc r.amount.toQ) 0

theorem sumRows_eq_sum (rows : List Row) :
    sumRows rows = (rows.map (fun r => r.amount.toQ)).sum := by
  have h : ∀ (acc : ℚ), rows.foldl (fun acc r => qAdd acc r.amount.toQ) acc =
      acc + (rows.map (fun r => r.amount.toQ)).sum := by
    induction rows with
    | nil => intro acc; simp
    | cons r rs ih =>
      intro acc
      rw [List.foldl_cons, ih, List.map_cons, List.sum_cons, qAdd_eq_add]
      ring
  simpa using h 0

/-- `GROUP BY category ORDER BY total_amount DESC` over an already-filtered
row list: one `{category, total_amount, count}` per distinct category. -/
def summaryOf (rows : List Row) : List SummaryRow :=
  List.insertionSort sumLE
    (((rows.map Row.category).dedup).map (fun c =>
      ⟨c, sumRows (rows.filter (fun r => decide (r.category = c))),
       (rows.filter (fun r => decide (r.category = c))).length⟩))

/-- The `if category:` guard of `main.py` line 121: Python truthiness, so
`None` and the empty string both mean "no category restriction". -/
def catFilter (cat : Option String) (r : Row) : Bool :=
  match cat with
  | some c => if c = "" then true else decide (r.category = c)
  | none => true

/-- `summarize` (`main.py` lines 109-131). -/
def summarize (db : DB) (s e : String) (cat : Option String) : List SummaryRow :=
  summaryOf (db.rows.filter (fun r => inRange s e r && catFilter cat r))

/-- `init_db` (`main.py` lines 23-48). `none` models a database file without
the table (`CREATE TABLE IF NOT EXISTS` creates it); `some db` models an
existing table, which the statement leaves alone. The write self-test then
runs `INSERT OR IGNORE INTO expenses(date, amount, category) VALUES
('2000-01-01', 0, 'test')` — no conflict is possible, so it always inserts —
followed by `DELETE FROM expenses WHERE category = 'test'`, which removes
every row whose category is `'test'`, not only the sentinel. The WAL pragma
has no data-level effect. -/
def init_db (st : Option DB) : DB :=
  let db := st.getD emptyDB
  let db1 : DB :=
    ⟨db.rows ++ [⟨db.nextId, "2000-01-01", .num 0, "test", "", ""⟩], db.nextId + 1⟩
  ⟨db1.rows.filter (fun r => decide (r.category ≠ "test")), db1.nextId⟩

/-- The built-in default category names (`main.py` lines 144-157). -/
def default_categories : List String :=
  ["Food & Dining", "Transportation", "Shopping", "Entertainment",
   "Bills & Utilities", "Healthcare", "Travel", "Education", "Business", "Other"]

/-- `json.dumps(\x7b"categories": cats\x7d, indent=2)` for a list of plain
category names. -/
def jsonOfCategories (cats : List String) : String :=
  "\x7b\n  \"categories\": [\n" ++
    String.intercalate ",\n" (cats.map (fun c => "    \"" ++ c ++ "\"")) ++
    "\n  ]\n\x7d"

/-- State of the override artifact `categories.json` as the `categories`
resource observes it: absent, present with some content, or present but
unreadable (the `open`/`read` raises, message `m`). -/
inductive FileState where
  | absent
  | present (content : String)
  | unreadable (m : String)
deriving DecidableEq

/-- `categories` (`main.py` lines 140-167): if the file exists its raw content
is returned verbatim — no parsing, no validation; if it is absent the default
catalog is serialized; if reading raises, a JSON error object is returned. -/
def categories (fs : FileState) : String :=
  match fs with
  | .present content => content
  | .absent => jsonOfCategories default_categories
  | .unreadable m => "\x7b\"error\": \"Could not load categories: " ++ m ++ "\"\x7d"

/-! ## General lemmas about the embedded operations -/

theorem summarize_none_eq (db : DB) (s e : String) :
    summarize db s e none = summaryOf (db.rows.filter (fun r => inRange s e r)) := by
  simp [summarize, catFilter]

theorem summaryOf_map_category (rows : List Row) :
    ((summaryOf rows).map SummaryRow.category).Perm ((rows.map Row.category).dedup) := by
  unfold summaryOf
  refine ((List.perm_insertionSort sumLE _).map _).trans ?_
  rw [List.map_map]
  simp only [Function.comp_def]
  rw [show (fun c => (⟨c, sumRows (rows.filter (fun r => decide (r.category = c))),
      (rows.filter (fun r => decide (r.category = c))).length⟩ : SummaryRow).category) =
      fun c : String => c from rfl, List.map_id']

theorem summaryOf_mem (rows : List Row) (g : SummaryRow) (hg : g ∈ summaryOf rows) :
    g.category ∈ (rows.map Row.category).dedup ∧
    g.total_amount = sumRows (rows.filter (fun r => decide (r.category = g.category))) ∧
    g.count = (rows.filter (fun r => decide (r.category = g.category))).length := by
  unfold summaryOf at hg
  have hg' := (List.perm_insertionSort sumLE _).mem_iff.mp hg
  rcases List.mem_map.mp hg' with ⟨c, hc, rfl⟩
  exact ⟨by simpa using hc, rfl, rfl⟩

theorem summaryOf_sorted (rows : List Row) : List.Sorted sumLE (summaryOf rows) :=
  List.sorted_insertionSort sumLE _

theorem filter_category_length_pos (rows : List Row) (c : String)
    (hc : c ∈ (rows.map Row.category).dedup) :
    0 < (rows.filter (fun r => decide (r.category = c))).length := by
  rcases List.mem_map.mp (List.mem_dedup.mp hc) with ⟨r, hr, rfl⟩
  exact List.length_pos_of_mem (List.mem_filter.mpr ⟨hr, by simp⟩)

/-! ## Claim theorems -/

/-- C10: if `date` or `category` is `null`, `add_expense` catches the
`NOT NULL` constraint failure and returns the structured error envelope,
leaving the `expenses` table unchanged: no row is inserted and no raw
exception escapes. -/
theorem add_expense_null_rejected (db : DB) (date category : Option String)
    (amount : InValue) (sub note : String) (h : date = none ∨ category = none) :
    (add_expense db date amount category sub note).1 = db ∧
    ((add_expense db date amount category sub note).2).isError = true := by
  rcases h with h | h
  · subst h
    exact ⟨rfl, rfl⟩
  · subst h
    cases date with
    | none => exact ⟨rfl, rfl⟩
    | some d => exact ⟨rfl, rfl⟩

/-- Witness for C10: a call with a `null` category leaves the table unchanged
and yields the error envelope. -/
theorem add_expense_null_rejected_witness :
    ((some "2024-01-01" : Option String) = none ∨ (none : Option String) = none) ∧
    (add_expense emptyDB (some "2024-01-01") (.num 5) none "" "").1 = emptyDB ∧
    ((add_expense emptyDB (some "2024-01-01") (.num 5) none "" "").2).isError = true :=
  ⟨Or.inr rfl,
   add_expense_null_rejected emptyDB (some "2024-01-01") none (.num 5) "" "" (Or.inr rfl)⟩

/-- C1 counterexample: calling `add_expense` with the non-numeric amount
`"abc"` does NOT return an error and DOES insert a row — SQLite's REAL
affinity stores the unconvertible string as TEXT and the insert succeeds,
so the claim is false as stated. -/
theorem add_expense_nonnumeric_counterexample :
    (add_expense emptyDB (some "2024-01-01") (.str "abc") (some "Food") "" "").2
      = .success 1 "Expense added successfully" ∧
    (add_expense emptyDB (some "2024-01-01") (.str "abc") (some "Food") "" "").1.rows
      = [⟨1, "2024-01-01", .text "abc", "Food", "", ""⟩] :=
  ⟨by decide, by decide⟩

/-- C1 amended: for every call to `add_expense` with a string amount that is
not coercible to a numeric value, the operation returns a success envelope
and inserts one row whose stored amount is the original string as TEXT. -/
theorem add_expense_nonnumeric_amended (db : DB) (d c sub note am : String)
    (h : parseNum am = none) :
    add_expense db (some d) (.str am) (some c) sub note =
      (⟨db.rows ++ [⟨db.nextId, d, .text am, c, sub, note⟩], db.nextId + 1⟩,
       .success db.nextId "Expense added successfully") := by
  simp [add_expense, Amount.ofInput, h]

/-- Witness for the amended C1 at the concrete input `"abc"`. -/
theorem add_expense_nonnumeric_amended_witness :
    parseNum "abc" = none ∧
    add_expense emptyDB (some "2024-01-01") (.str "abc") (some "Food") "" "" =
      (⟨[⟨1, "2024-01-01", .text "abc", "Food", "", ""⟩], 2⟩,
       .success 1 "Expense added successfully") :=
  ⟨by decide, by
    simpa [emptyDB] using
      add_expense_nonnumeric_amended emptyDB "2024-01-01" "Food" "" "" "abc" (by decide)⟩

/-- C2 counterexample: after inserting amount `"abc"`, the table holds a
record whose `amount` field is a string, not a numeric value, so the
invariant is false as stated. -/
theorem stored_amount_counterexample :
    ((add_expense emptyDB (some "2024-01-01") (.str "abc") (some "Food") "" "").1.rows.map
      (fun r => r.amount)) = [.text "abc"] := by
  decide

/-- C2 amended: every record inserted with an amount supplied as a number, or
as a string coercible to a numeric value, is stored with a numeric amount
(the coercible string is converted before storage); only non-coercible
string inputs violate the numeric invariant. -/
theorem stored_amount_numeric_amended (db : DB) (d c sub note : String)
    (v : InValue) (q : ℚ)
    (h : v = .num q ∨ ∃ s, v = .str s ∧ parseNum s = some q) :
    (add_expense db (some d) v (some c) sub note).1.rows =
      db.rows ++ [⟨db.nextId, d, .num q, c, sub, note⟩] := by
  rcases h with rfl | ⟨s, rfl, hs⟩
  · simp [add_expense, Amount.ofInput]
  · simp [add_expense, Amount.ofInput, hs]

/-- Witness for the amended C2: amount supplied as the string `"12.50"` is
stored as the numeric value 25/2 = 12.5. -/
theorem stored_amount_numeric_amended_witness :
    ((.str "12.50" : InValue) = .num (mkRat 25 2) ∨
      ∃ s, (.str "12.50" : InValue) = .str s ∧ parseNum s = some (mkRat 25 2)) ∧
    (add_expense emptyDB (some "2024-01-01") (.str "12.50") (some "Food") "" "").1.rows =
      [⟨1, "2024-01-01", .num (mkRat 25 2), "Food", "", ""⟩] ∧
    (mkRat 25 2 : ℚ) = 25 / 2 :=
  ⟨Or.inr ⟨"12.50", rfl, by decide⟩,
   by
    simpa [emptyDB] using
      stored_amount_numeric_amended emptyDB "2024-01-01" "Food" "" "" (.str "12.50")
        (mkRat 25 2) (Or.inr ⟨"12.50", rfl, by decide⟩),
   by rw [Rat.mkRat_eq_div]; norm_num⟩

/-- C4 counterexample: schema bootstrap does NOT leave all existing records
untouched — its self-test cleanup `DELETE FROM expenses WHERE category =
'test'` deletes a pre-existing user row whose category is `'test'`. -/
theorem init_db_counterexample :
    (init_db (some ⟨[⟨1, "2024-01-01", .num 5, "test", "", ""⟩], 2⟩)).rows = [] := by
  decide

/-- C4 amended: schema bootstrap is callable any number of times without
duplicate tables or errors; it preserves every pre-existing row whose
category is not `'test'`, but the self-test cleanup deletes every row whose
category is `'test'`; a second run in succession leaves the rows produced by
the first run unchanged. Bootstrapping a missing table yields the empty
table. -/
theorem init_db_amended (db : DB) :
    (init_db (some db)).rows = db.rows.filter (fun r => decide (r.category ≠ "test")) ∧
    (init_db (some (init_db (some db)))).rows = (init_db (some db)).rows ∧
    (init_db none).rows = [] := by
  have h : ∀ d : DB, (init_db (some d)).rows =
      d.rows.filter (fun r => decide (r.category ≠ "test")) := by
    intro d
    simp [init_db]
  refine ⟨h db, ?_, by decide⟩
  rw [h (init_db (some db)), h db]
  exact List.filter_eq_self.mpr (fun a ha => (List.mem_filter.mp ha).2)

/-- C5 counterexample: when the override artifact is present but malformed,
`categories` does NOT fall back to the built-in defaults — the file content
is returned verbatim, without any parsing or validation. -/
theorem categories_counterexample :
    categories (.present "oops, this is not JSON") = "oops, this is not JSON" ∧
    categories (.present "oops, this is not JSON") ≠ jsonOfCategories default_categories :=
  ⟨rfl, by decide⟩

/-- C5 amended: the categories read operation never raises (it is a total
function of the observed file state): when the override artifact is absent it
returns exactly the serialization of the ten built-in default category names;
when the artifact is present — well-formed or malformed — its content is
returned verbatim; and when reading it fails, a JSON error object is
returned, not the defaults. -/
theorem categories_amended :
    categories .absent = jsonOfCategories default_categories ∧
    default_categories.length = 10 ∧
    (∀ content, categories (.present content) = content) ∧
    (∀ m, categories (.unreadable m) =
      "\x7b\"error\": \"Could not load categories: " ++ m ++ "\"\x7d") :=
  ⟨rfl, rfl, fun _ => rfl, fun _ => rfl⟩

/-- C6: for every pair of dates, `list_expenses` returns exactly the stored
rows whose date lies in the closed interval `[start_date, end_date]` under
lexicographic string comparison (as a permutation of the SQL row filter, with
membership characterized), ordered descending by date with ties broken by
descending id (`rowLE`). -/
theorem list_expenses_spec (db : DB) (s e : String) :
    (∀ r, r ∈ list_expenses db s e ↔ r ∈ db.rows ∧ s ≤ r.date ∧ r.date ≤ e) ∧
    (list_expenses db s e).Perm (db.rows.filter (fun r => inRange s e r)) ∧
    List.Sorted rowLE (list_expenses db s e) := by
  refine ⟨?_, List.perm_insertionSort rowLE _, List.sorted_insertionSort rowLE _⟩
  intro r
  unfold list_expenses
  rw [(List.perm_insertionSort rowLE _).mem_iff, List.mem_filter, inRange_iff]

/-- C7: for every date range, `summarize` with no category filter returns one
`{category, total_amount, count}` entry per non-empty category group of the
rows in the interval — `total_amount` the sum of the group's amounts and
`count` its number of rows — ordered descending by `total_amount`; on the
records `{Food,10}`, `{Food,5}`, `{Travel,20}` it returns
`[{Travel,20,1}, {Food,15,2}]`. -/
theorem summarize_nofilter_spec (db : DB) (s e : String) :
    ((summarize db s e none).map SummaryRow.category).Perm
      (((db.rows.filter (fun r => inRange s e r)).map Row.category).dedup) ∧
    (∀ g ∈ summarize db s e none,
      g.total_amount =
        (((db.rows.filter (fun r => inRange s e r)).filter
            (fun r => decide (r.category = g.category))).map (fun r => r.amount.toQ)).sum ∧
      g.count = ((db.rows.filter (fun r => inRange s e r)).filter
            (fun r => decide (r.category = g.category))).length ∧
      0 < g.count) ∧
    List.Sorted sumLE (summarize db s e none) ∧
    summarize ⟨[⟨1, "2024-03-01", .num 10, "Food", "", ""⟩,
                ⟨2, "2024-03-02", .num 5, "Food", "", ""⟩,
                ⟨3, "2024-03-03", .num 20, "Travel", "", ""⟩], 4⟩
      "2024-01-01" "2024-12-31" none = [⟨"Travel", 20, 1⟩, ⟨"Food", 15, 2⟩] := by
  rw [summarize_none_eq]
  refine ⟨summaryOf_map_category _, ?_, summaryOf_sorted _, by decide⟩
  intro g hg
  obtain ⟨hc, ht, hn⟩ := summaryOf_mem _ g hg
  refine ⟨ht.trans (sumRows_eq_sum _), hn, ?_⟩
  rw [hn]
  exact filter_category_length_pos _ _ hc

/-- C8: for every date range and non-null, non-empty category, `summarize`
restricts the rows to that category before grouping (it agrees with
summarizing the table pre-filtered to that category with no filter); a
category with zero matching rows in the range yields the empty sequence,
not a zero-total entry. -/
theorem summarize_catfilter_spec (db : DB) (s e c : String) (hc : c ≠ "") :
    summarize db s e (some c) =
      summarize ⟨db.rows.filter (fun r => decide (r.category = c)), db.nextId⟩ s e none ∧
    ((∀ r ∈ db.rows, r.category = c → inRange s e r = false) →
      summarize db s e (some c) = []) := by
  constructor
  · simp only [summarize, catFilter, if_neg hc]
    congr 1
    rw [List.filter_filter]
    apply List.filter_congr
    intro r hr
    cases inRange s e r <;> simp
  · intro h
    have hnil : db.rows.filter (fun r => inRange s e r && catFilter (some c) r) = [] := by
      rw [List.filter_eq_nil_iff]
      intro r hr hpred
      rw [Bool.and_eq_true] at hpred
      have hcat : r.category = c := by
        have h2 := hpred.2
        rw [catFilter] at h2
        rw [if_neg hc] at h2
        simpa using h2
      have hfalse := h r hr hcat
      rw [hfalse] at hpred
      exact Bool.false_ne_true hpred.1
    show summaryOf _ = _
    rw [hnil]
    rfl

/-- Witness for C8 at a concrete input: filtering on `"Travel"` over a table
whose only in-range row is a `"Food"` expense returns the empty sequence. -/
theorem summarize_catfilter_witness :
    ("Travel" ≠ "") ∧
    summarize ⟨[⟨1, "2024-01-15", .num 10, "Food", "", ""⟩], 2⟩
      "2024-01-01" "2024-12-31" (some "Travel") = [] :=
  ⟨by decide,
   (summarize_catfilter_spec ⟨[⟨1, "2024-01-15", .num 10, "Food", "", ""⟩], 2⟩
      "2024-01-01" "2024-12-31" "Travel" (by decide)).2 (by decide)⟩

/-- C9: for every pair of dates with `start_date` lexicographically greater
than `end_date`, both `list_expenses` and `summarize` return the empty
sequence, not an error. -/
theorem reversed_range_empty (db : DB) (s e : String) (cat : Option String)
    (h : e < s) :
    list_expenses db s e = [] ∧ summarize db s e cat = [] := by
  have hfalse : ∀ r : Row, inRange s e r = false := by
    intro r
    cases hin : inRange s e r
    · rfl
    · obtain ⟨h1, h2⟩ := (inRange_iff s e r).mp hin
      exact absurd (le_trans h1 h2) (not_le.mpr h)
  constructor
  · unfold list_expenses
    rw [List.filter_eq_nil_iff.mpr (fun r _ hp => Bool.false_ne_true ((hfalse r) ▸ hp))]
    rfl
  · show summaryOf _ = _
    rw [List.filter_eq_nil_iff.mpr ?_]
    · rfl
    · intro r _ hp
      rw [Bool.and_eq_true] at hp
      exact Bool.false_ne_true ((hfalse r) ▸ hp.1)

/-- Witness for C9: the reversed range `["2024-02-01", "2024-01-01"]` over a
non-empty table yields empty results from both operations. -/
theorem reversed_range_empty_witness :
    ("2024-01-01" : String) < "2024-02-01" ∧
    list_expenses ⟨[⟨1, "2024-01-15", .num 3, "Food", "", ""⟩], 2⟩
      "2024-02-01" "2024-01-01" = [] ∧
    summarize ⟨[⟨1, "2024-01-15", .num 3, "Food", "", ""⟩], 2⟩
      "2024-02-01" "2024-01-01" none = [] := by
  have h : ("2024-01-01" : String) < "2024-02-01" :=
    String.lt_iff_toList_lt.mpr (by decide)
  exact ⟨h,
    (reversed_range_empty ⟨[⟨1, "2024-01-15", .num 3, "Food", "", ""⟩], 2⟩
      "2024-02-01" "2024-01-01" none h).1,
    (reversed_range_empty ⟨[⟨1, "2024-01-15", .num 3, "Food", "", ""⟩], 2⟩
      "2024-02-01" "2024-01-01" none h).2⟩

/-- C3: inserting a record via `add_expense` (amount supplied as a numeric
string coercible to `q`) and listing over any date range containing its date
returns that record — all six fields preserved verbatim and the amount read
back as the numeric value `q` — and it is the unique listed row bearing the
assigned id. -/
theorem insert_then_list_roundtrip (db : DB) (d am cat sub note s e : String)
    (q : ℚ) (hwf : WF db) (hq : parseNum am = some q) (hs : s ≤ d) (he : d ≤ e) :
    (add_expense db (some d) (.str am) (some cat) sub note).2 =
      .success db.nextId "Expense added successfully" ∧
    (⟨db.nextId, d, .num q, cat, sub, note⟩ : Row) ∈
      list_expenses (add_expense db (some d) (.str am) (some cat) sub note).1 s e ∧
    (∀ r ∈ list_expenses (add_expense db (some d) (.str am) (some cat) sub note).1 s e,
      r.id = db.nextId → r = ⟨db.nextId, d, .num q, cat, sub, note⟩) := by
  have hdb1 : (add_expense db (some d) (.str am) (some cat) sub note).1 =
      ⟨db.rows ++ [⟨db.nextId, d, .num q, cat, sub, note⟩], db.nextId + 1⟩ := by
    simp [add_expense, Amount.ofInput, hq]
  refine ⟨rfl, ?_, ?_⟩
  · rw [hdb1]
    unfold list_expenses
    rw [(List.perm_insertionSort rowLE _).mem_iff, List.mem_filter]
    exact ⟨List.mem_append_right _ (List.mem_singleton.mpr rfl),
           (inRange_iff s e _).mpr ⟨hs, he⟩⟩
  · intro r hr hid
    rw [hdb1] at hr
    unfold list_expenses at hr
    rw [(List.perm_insertionSort rowLE _).mem_iff, List.mem_filter] at hr
    rcases List.mem_append.mp hr.1 with hmem | hmem
    · exact absurd (hid ▸ hwf r hmem) (lt_irrefl _)
    · exact List.mem_singleton.mp hmem

/-- Witness for C3: inserting amount `"12.50"` dated `2024-06-15` into the
empty table and listing the year 2024 returns the record with amount
25/2 = 12.5. -/
theorem insert_then_list_roundtrip_witness :
    WF emptyDB ∧ parseNum "12.50" = some (mkRat 25 2) ∧
    ("2024-01-01" : String) ≤ "2024-06-15" ∧
    ("2024-06-15" : String) ≤ "2024-12-31" ∧
    (⟨1, "2024-06-15", .num (mkRat 25 2), "Food", "", ""⟩ : Row) ∈
      list_expenses
        (add_expense emptyDB (some "2024-06-15") (.str "12.50") (some "Food") "" "").1
        "2024-01-01" "2024-12-31" ∧
    (mkRat 25 2 : ℚ) = 25 / 2 := by
  have hwf : WF emptyDB := by
    intro r hr
    simp [emptyDB] at hr
  have hs : ("2024-01-01" : String) ≤ "2024-06-15" := (strLeb_iff _ _).mp (by decide)
  have he : ("2024-06-15" : String) ≤ "2024-12-31" := (strLeb_iff _ _).mp (by decide)
  refine ⟨hwf, by decide, hs, he, ?_, by rw [Rat.mkRat_eq_div]; norm_num⟩
  exact (insert_then_list_roundtrip emptyDB "2024-06-15" "12.50" "Food" "" ""
    "2024-01-01" "2024-12-31" (mkRat 25 2) hwf (by decide) hs he).2.1
